import Mathlib

/-!
Verification of the Telex AI Fitness Tip Agent (FastAPI service).

This file gives a shallow embedding of the request-normalization and
response-envelope layer of the service:

- `sanitize_text` embeds `utils.sanitize_text` (HTML-entity unescape, tag
  stripping, URL stripping, non-ASCII stripping, whitespace collapse, strip);
- `clean_text` embeds `main.clean_text` (lazy tag regex plus strip);
- `add_tip_to_history` / `get_cached_tip_for_today` embed `cache.py`, with the
  JSON file state passed explicitly as a list of entries and the observed
  calendar day passed as a parameter (the Python code reads
  `datetime.date.today()`);
- `get_gemini_reply` embeds `openai_client.get_gemini_reply`; the external
  Gemini transport is abstracted as an oracle mapping the attempt number to an
  outcome (reply text, timeout, or other error), the in-memory per-user session
  store is explicit state, and the live chat-session handle is modelled by a
  numeric session identifier allocated from a counter (fresh ids for fresh
  sessions); the rate guard only sleeps and is timing-only, so it has no
  observable effect in this embedding;
- `message` embeds the `POST /message` handler of `main.py`; the body-parsing
  and pydantic-validation outcomes are the three constructors of
  `InboundBody`, and a Python exception escaping the handler is modelled as
  the `Except.error` case of the result. Freshly generated UUIDs and
  timestamps in the outbound envelope are abstracted away; the fields kept are
  the ones the verified claims speak about.
-/

/-! ## Python string primitives -/

/-- Whitespace characters recognised by Python's `str.strip` and `\s` for the
ASCII range (the inputs manipulated by this service are ASCII after
sanitization; the unicode whitespace cases of Python are not modelled). -/
def isPyWs (c : Char) : Bool :=
  c == ' ' || c == '\t' || c == '\n' || c == '\r' || c == Char.ofNat 11 || c == Char.ofNat 12

/-- Negation of `isPyWs`, used for the `\S` regex class. -/
def notPyWs (c : Char) : Bool := !(isPyWs c)

/-- Python `str.strip()` on a character list: drop leading and trailing
whitespace. -/
def pyStripL (l : List Char) : List Char :=
  ((l.dropWhile isPyWs).reverse.dropWhile isPyWs).reverse

/-- Python `str.strip()` on strings. -/
def pyStrip (s : String) : String := String.mk (pyStripL s.toList)

/-- ASCII lower-casing of one character, embedding Python `str.lower` for the
ASCII inputs used by the service. -/
def lowerChar (c : Char) : Char :=
  if 'A' ≤ c ∧ c ≤ 'Z' then Char.ofNat (c.toNat + 32) else c

/-- Python `str.lower()` (ASCII model). -/
def strLower (s : String) : String := String.mk (s.toList.map lowerChar)

/-- Python substring containment `needle in hay` on character lists. -/
def listSub : List Char → List Char → Bool
  | needle, [] => needle.isEmpty
  | needle, c :: t => needle.isPrefixOf (c :: t) || listSub needle t

/-- Python substring containment `needle in hay` on strings. -/
def containsSub (hay needle : String) : Bool := listSub needle.toList hay.toList

/-! ## utils.sanitize_text -/

/-- HTML entity table used by the embedding of Python's `html.unescape`,
restricted to the standard named entities relevant to this code base (each
entry is the character list following the ampersand, paired with the decoded
character; longest alternatives first so the scan is longest-match). Inputs
containing no ampersand are unaffected by `unescape`. -/
def entityTable : List (List Char × Char) :=
  [("amp;".toList, '&'), ("amp".toList, '&'),
   ("lt;".toList, '<'), ("lt".toList, '<'),
   ("gt;".toList, '>'), ("gt".toList, '>'),
   ("quot;".toList, '"'), ("quot".toList, '"'),
   ("nbsp;".toList, Char.ofNat 160),
   ("#39;".toList, Char.ofNat 39)]

/-- Look up the longest entity name starting at the given suffix and return
the decoded character together with how many characters were consumed. -/
def findEntity (l : List Char) : Option (Char × Nat) :=
  (entityTable.find? (fun e => e.1.isPrefixOf l)).map (fun e => (e.2, e.1.length))

/-- Embedding of Python `html.unescape` (for the modelled entity table): decode
ampersand-escaped entities left to right. The second argument is the number of
already-consumed characters still to skip (the tail of a decoded entity), so
the recursion is structural. -/
def unescAux : List Char → Nat → List Char
  | [], _ => []
  | _ :: rest, k + 1 => unescAux rest k
  | c :: rest, 0 =>
    if c == '&' then
      match findEntity rest with
      | some (repl, n) => repl :: unescAux rest n
      | none => '&' :: unescAux rest 0
    else c :: unescAux rest 0

/-- Embedding of Python `html.unescape` (entry point, skip state zero). -/
def unescape (l : List Char) : List Char := unescAux l 0

/-- Embedding of `re.sub(r"<[^>]+>", "", text)`: at an opening angle bracket,
a match removes everything up to and including the next closing bracket,
provided at least one character lies between them; otherwise the character is
kept and scanning resumes at the next position. -/
def stripTagsAux : List Char → Nat → List Char
  | [], _ => []
  | _ :: rest, k + 1 => stripTagsAux rest k
  | c :: rest, 0 =>
    if c == '<' then
      match rest.findIdx? (fun d => d == '>') with
      | some i => if 1 ≤ i then stripTagsAux rest (i + 1) else '<' :: stripTagsAux rest 0
      | none => '<' :: stripTagsAux rest 0
    else c :: stripTagsAux rest 0

/-- Entry point of the `<[^>]+>` scan (skip state zero). -/
def stripTags (l : List Char) : List Char := stripTagsAux l 0

/-- Does the list start with the literal characters `http` followed by at
least one non-whitespace character? This is where `re.sub(r"http\S+", "", t)`
can match. -/
def isHttpStart : List Char → Bool
  | 'h' :: 't' :: 't' :: 'p' :: d :: _ => notPyWs d
  | _ => false

/-- Embedding of `re.sub(r"http\S+", "", text)`: at each match position remove
`http` together with the maximal following run of non-whitespace characters,
then resume after the removed segment. -/
def stripUrlsAux : List Char → Nat → List Char
  | [], _ => []
  | _ :: rest, k + 1 => stripUrlsAux rest k
  | c :: rest, 0 =>
    if isHttpStart (c :: rest) then
      stripUrlsAux rest (3 + ((rest.drop 3).takeWhile notPyWs).length)
    else c :: stripUrlsAux rest 0

/-- Entry point of the `http\S+` scan (skip state zero): at a match position
the whole match — `http` plus the maximal following non-whitespace run — is
skipped. -/
def stripUrls (l : List Char) : List Char := stripUrlsAux l 0

/-- Embedding of `re.sub(r"[^\x00-\x7F]+", "", text)`: keep only ASCII
characters. -/
def stripNonAscii (l : List Char) : List Char :=
  l.filter (fun c => decide (c.toNat ≤ 127))

/-- Single left-to-right pass of `re.sub(r"\s+", " ", text)`: the flag records
whether the previous character belonged to a whitespace run that has already
emitted its single replacement space. -/
def collapseAux : List Char → Bool → List Char
  | [], _ => []
  | c :: rest, prevWs =>
    if isPyWs c then
      if prevWs then collapseAux rest true else ' ' :: collapseAux rest true
    else c :: collapseAux rest false

/-- Embedding of `re.sub(r"\s+", " ", text)`. -/
def collapseWs (l : List Char) : List Char := collapseAux l false

/-- Embedding of `utils.sanitize_text`: unescape HTML entities, strip HTML
tags, strip URL tokens, strip non-ASCII characters, collapse whitespace runs
to single spaces, and strip the ends. -/
def sanitize_text (s : String) : String :=
  String.mk (pyStripL (collapseWs (stripNonAscii (stripUrls (stripTags (unescape s.toList))))))

/-! ## main.clean_text -/

/-- Embedding of `re.sub(r"<.*?>", "", text)` (lazy match, dot excludes
newline): at an opening bracket, a match removes everything up to and
including the nearest closing bracket provided no newline lies between (an
empty gap is allowed); otherwise the character is kept. -/
def cleanTextAux : List Char → Nat → List Char
  | [], _ => []
  | _ :: rest, k + 1 => cleanTextAux rest k
  | c :: rest, 0 =>
    if c == '<' then
      match rest.findIdx? (fun d => d == '>') with
      | some i =>
        if (rest.take i).all (fun d => d != '\n') then cleanTextAux rest (i + 1)
        else '<' :: cleanTextAux rest 0
      | none => '<' :: cleanTextAux rest 0
    else c :: cleanTextAux rest 0

/-- Embedding of `main.clean_text`: remove HTML tags (lazy regex) and trim
whitespace. -/
def clean_text (s : String) : String := String.mk (pyStripL (cleanTextAux s.toList 0))

/-! ## cache.py -/

/-- One entry of the JSON-file tip history: the ISO calendar day it was
recorded plus the tip text. -/
structure TipEntry where
  date : String
  tip : String
deriving DecidableEq

/-- Python slice `l[-n:]` for a non-negative count `n` (for `n = 0` the slice
is `l[0:]`, the whole list). -/
def pySliceLast (n : Nat) (l : List α) : List α :=
  if n = 0 then l else l.drop (l.length - n)

/-- Embedding of `cache.add_tip_to_history`: append a dated entry and keep the
last `histSize` entries (`HISTORY_SIZE`, default 7). The file state is the
explicit `hist` argument; the observed calendar day is the `today`
argument. -/
def add_tip_to_history (histSize : Nat) (hist : List TipEntry) (today tip : String) :
    List TipEntry :=
  pySliceLast histSize (hist ++ [⟨today, tip⟩])

/-- Embedding of `cache.get_cached_tip_for_today`: look only at the last
history entry and return its tip exactly when its date is the observed
calendar day. -/
def get_cached_tip_for_today (hist : List TipEntry) (today : String) : Option String :=
  match hist.getLast? with
  | some last => if last.date = today then some last.tip else none
  | none => none

/-- Fold a sequence of appends through `add_tip_to_history` (used to state the
bounded-history property). -/
def appendAll (histSize : Nat) (hist : List TipEntry) (entries : List TipEntry) :
    List TipEntry :=
  entries.foldl (fun h e => add_tip_to_history histSize h e.date e.tip) hist

/-! ## openai_client.py -/

/-- Per-user entry of the in-memory `_user_sessions` store: the bounded chat
history (role, text pairs) and the live chat-session handle, modelled by a
numeric identifier. -/
structure UserSess where
  hist : List (String × String)
  sid : Nat

/-- State of the generation client: the per-user session store plus the
counter from which fresh session identifiers are allocated (a fresh
`model.start_chat` call yields a handle distinct from every live one). -/
structure GenState where
  users : String → Option UserSess
  nextId : Nat

/-- Outcome of one external Gemini call: a reply text, an
`asyncio.TimeoutError`, or any other exception. -/
inductive POut
  | ok (text : String)
  | timeout
  | fail
deriving DecidableEq

/-- Embedding of `get_or_create_session`: return the user's session id, or
allocate a fresh one (with empty chat history) if absent. -/
def get_or_create_session (uid : String) (st : GenState) : Nat × GenState :=
  match st.users uid with
  | some u => (u.sid, st)
  | none =>
    (st.nextId,
     { users := fun v => if v = uid then some ⟨[], st.nextId⟩ else st.users v,
       nextId := st.nextId + 1 })

/-- Embedding of `add_to_history`: ensure the user has a session, append the
turn, and keep the last 10 turns. -/
def add_to_history (uid role msg : String) (st : GenState) : GenState :=
  let st1 := (get_or_create_session uid st).2
  match st1.users uid with
  | some u =>
    { st1 with
      users := fun v =>
        if v = uid then some ⟨pySliceLast 10 (u.hist ++ [(role, msg)]), u.sid⟩
        else st1.users v }
  | none => st1

/-- Embedding of `_user_sessions.pop(user_id, None)`: discard the user's
session state. -/
def popUser (uid : String) (st : GenState) : GenState :=
  { st with users := fun v => if v = uid then none else st.users v }

/-- Greeting keyword list of `get_gemini_reply` (checked by substring
containment against the lower-cased stripped utterance). -/
def greetings : List String :=
  ["hi", "hello", "hey", "good morning", "good evening", "good afternoon",
   "yo", "sup", "what\x27s up"]

/-- Health-domain keyword list of `get_gemini_reply`. -/
def health_keywords : List String :=
  ["health", "body", "fitness", "workout", "exercise", "diet", "nutrition",
   "stretch", "sleep", "hydration", "wellness", "training", "muscle",
   "posture", "yoga", "cardio", "running", "strength", "mental health"]

/-- Fixed greeting reply returned without calling the model. -/
def greetingReply : String :=
  "Hey there! 👋 I’m FitAI, your personal health and fitness buddy. Ask me about workouts, nutrition, or wellness to get started!"

/-- Fixed polite refusal returned for non-health utterances without calling
the model. -/
def politeRefusal : String :=
  "I\x27m FitAI 💪 — I only share tips and guidance about health, fitness, and body wellness. Try asking me about workouts, diet, or posture!"

/-- Fixed user-facing fallback returned after the retry also times out. -/
def timeoutFallback : String :=
  "Sorry, FitAI’s connection is a bit slow right now. Please try again in a few seconds 💪."

/-- Fixed fallback returned on a non-timeout provider error. -/
def errorFallback : String :=
  "Oops! Something went wrong while fetching your health tip. Please try again shortly 💚."

/-- Fixed fallback returned when the provider text sanitizes to empty. -/
def emptyFallback : String :=
  "Hmm, I couldn’t get a response just now — please try again in a bit 💪."

/-- Python `clean[:200].rsplit(" ", 1)[0]`: the part before the last space,
or the whole list when no space occurs. -/
def rsplitDrop (l : List Char) : List Char :=
  match l.reverse.findIdx? (fun c => c == ' ') with
  | some i => (l.reverse.drop (i + 1)).reverse
  | none => l

/-- Embedding of the reply-length police of `get_gemini_reply`: replies longer
than 200 characters are cut to the first 200 characters, backed up to the
last space when one exists, with an ellipsis marker appended. -/
def truncateReply (s : String) : String :=
  if s.length > 200 then String.mk (rsplitDrop (s.toList.take 200) ++ ("...".toList))
  else s

/-- Result of one `get_gemini_reply` call: the reply text, how many external
model calls were made, the session ids used by those calls (in order), and the
updated session store. The Python function catches every exception of the
model call, so it always returns normally; accordingly the embedding is a
total function. -/
structure GenResult where
  reply : String
  modelCalls : Nat
  sids : List Nat
  state : GenState

/-- Success path of `get_gemini_reply` after the model answered: sanitize the
raw text, fall back if it is empty, otherwise truncate and record the turn. -/
def finishReply (uid raw : String) (st : GenState) (calls : Nat) (sids : List Nat) :
    GenResult :=
  let clean := pyStrip (sanitize_text raw)
  if clean = "" then ⟨emptyFallback, calls, sids, add_to_history uid "model" emptyFallback st⟩
  else
    let out := truncateReply clean
    ⟨out, calls, sids, add_to_history uid "model" out st⟩

/-- Embedding of `openai_client.get_gemini_reply`. The oracle gives the
outcome of the external call by attempt number (the loop makes at most two
attempts). On a first-attempt timeout the user's session state is popped and a
fresh session is created for the single retry; a second timeout yields the
fixed fallback; any other provider error yields the error fallback
immediately. The rate guard only delays and is not modelled. -/
def get_gemini_reply (oracle : Nat → POut) (uid msg : String) (st : GenState) : GenResult :=
  let p0 := get_or_create_session uid st
  let st2 := add_to_history uid "user" msg p0.2
  let lowerMsg := pyStrip (strLower msg)
  if greetings.any (fun g => containsSub lowerMsg g) then
    ⟨greetingReply, 0, [], add_to_history uid "model" greetingReply st2⟩
  else if !(health_keywords.any (fun k => containsSub lowerMsg k)) then
    ⟨politeRefusal, 0, [], add_to_history uid "model" politeRefusal st2⟩
  else
    match oracle 0 with
    | .ok raw => finishReply uid raw st2 1 [p0.1]
    | .fail => ⟨errorFallback, 1, [p0.1], add_to_history uid "model" errorFallback st2⟩
    | .timeout =>
      let st3 := popUser uid st2
      let p1 := get_or_create_session uid st3
      match oracle 1 with
      | .ok raw => finishReply uid raw p1.2 2 [p0.1, p1.1]
      | .fail =>
        ⟨errorFallback, 2, [p0.1, p1.1], add_to_history uid "model" errorFallback p1.2⟩
      | .timeout =>
        ⟨timeoutFallback, 2, [p0.1, p1.1], add_to_history uid "model" timeoutFallback p1.2⟩

/-! ## main.py message endpoint -/

/-- Raw nested item of a data part (a plain dict in Python; `kind` and `text`
may be absent). -/
structure DataItem where
  kind : Option String
  text : Option String
deriving DecidableEq

/-- Validated `MessagePart` (pydantic): a kind discriminator plus optional
text and data payloads. -/
structure MessagePart where
  kind : String
  text : Option String
  data : Option (List DataItem)
deriving DecidableEq

/-- The fields of a validated `RpcRequest` consumed by the handler (pydantic
already forces `jsonrpc = "2.0"`; the method is one of `message/send` and
`execute`). -/
structure RpcReq where
  id : String
  method : String
  parts : List MessagePart
deriving DecidableEq

/-- Outcome of the two parsing stages that open the handler: the body is not
valid JSON (`request.json()` raises), the body is JSON but fails
`RpcRequest(**data)` validation, or validation produced a request. -/
inductive InboundBody
  | notJson
  | invalidEnvelope
  | valid (req : RpcReq)
deriving DecidableEq

/-- JSON-RPC error object (`schemas.RpcError`). -/
structure RpcError where
  code : Int
  message : String
deriving DecidableEq

/-- The protocol-relevant fields of a populated `Result` envelope: the status
state, the agent message text, the duplicated artifact text, and the echoed
inbound parts (fresh UUIDs and the timestamp are abstracted away). -/
structure ResultObj where
  state : String
  messageText : String
  artifactText : String
  history : List MessagePart
deriving DecidableEq

/-- Outbound `RpcResponse` envelope: the echoed id plus optional result and
error members. -/
structure RpcResponse where
  id : String
  result : Option ResultObj
  error : Option RpcError
deriving DecidableEq

/-- Scan of the nested items of a data part (already reversed by the caller):
the first item with kind `text` and non-empty stripped text is the candidate
(the inner loop breaks there even when the cleaned text is empty). -/
def findItemText : List DataItem → Option String
  | [] => none
  | it :: rest =>
    match it.text with
    | some t =>
      if it.kind = some "text" ∧ pyStrip t ≠ "" then some t else findItemText rest
    | none => findItemText rest

/-- Extraction loop of the handler over the (already reversed) parts list. A
text part with non-empty stripped text ends the loop with its cleaned text
(even when cleaning empties it); a data part contributes the cleaned text of
its most recent plausible item, but the loop continues when that cleans to
empty; a data part whose `data` field is `None` makes Python call
`reversed(None)`, raising `TypeError` (the `Except.error` case, caught by the
handler's blanket `except`). -/
def extractLoop : List MessagePart → Except String String
  | [] => .ok ""
  | p :: rest =>
    if p.kind = "text" then
      match p.text with
      | some t => if pyStrip t ≠ "" then .ok (clean_text t) else extractLoop rest
      | none => extractLoop rest
    else if p.kind = "data" then
      match p.data with
      | none => .error "TypeError: reversed(None)"
      | some items =>
        match findItemText items.reverse with
        | some t => if clean_text t ≠ "" then .ok (clean_text t) else extractLoop rest
        | none => extractLoop rest
    else extractLoop rest

/-- Extraction of the canonical user text: scan the parts in reverse order. -/
def extract_user_text (parts : List MessagePart) : Except String String :=
  extractLoop parts.reverse

/-- History rendering of the `history`/`log` command. -/
def historyText (cache : List TipEntry) : String :=
  if cache.isEmpty then "No fitness history found yet."
  else String.intercalate "\n" (cache.map (fun e => e.tip))

/-- The bare envelope `RpcResponse(jsonrpc="2.0", id=...)` returned by the
handler's early exits and by its `except` clause: neither result nor error is
populated. -/
def emptyResp (id : String) : RpcResponse := ⟨id, none, none⟩

/-- The populated success envelope: completed status, the reply text in the
agent message and duplicated in the artifact, inbound parts echoed as
history. -/
def fullResp (id text : String) (parts : List MessagePart) : RpcResponse :=
  ⟨id, some ⟨"completed", text, text, parts⟩, none⟩

/-- The Python exception escaping the handler when its `except` clause reads
the local `rpc_request` that was never assigned (body parsing or validation
failed before line 77 completed). -/
def crashMsg : String := "UnboundLocalError: rpc_request referenced before assignment"

/-- Result of one `POST /message` call: the response (or the exception that
escaped the handler), the tip-history file state afterwards, the generation
client state afterwards, and whether `get_gemini_reply` was invoked. -/
structure HResult where
  res : Except String RpcResponse
  cacheAfter : List TipEntry
  gstAfter : GenState
  calledGemini : Bool

/-- Embedding of the `POST /message` handler of `main.py`. When body parsing
or envelope validation raises, control reaches the `except` clause with the
local `rpc_request` unbound, so the clause itself raises and the handler
crashes. Otherwise: non-`message/send` methods and empty extracted text get
the bare envelope; a `history`/`log` utterance renders the tip history; any
other utterance is answered by `get_gemini_reply`. No branch of the handler
writes to the tip-history file. -/
def message (cache : List TipEntry) (gst : GenState) (oracle : Nat → POut) :
    InboundBody → HResult
  | .notJson => ⟨.error crashMsg, cache, gst, false⟩
  | .invalidEnvelope => ⟨.error crashMsg, cache, gst, false⟩
  | .valid req =>
    if req.method ≠ "message/send" then ⟨.ok (emptyResp req.id), cache, gst, false⟩
    else
      match extract_user_text req.parts with
      | .error _ => ⟨.ok (emptyResp req.id), cache, gst, false⟩
      | .ok u =>
        if u = "" then ⟨.ok (emptyResp req.id), cache, gst, false⟩
        else if containsSub (strLower u) "history" || containsSub (strLower u) "log" then
          ⟨.ok (fullResp req.id (historyText cache) req.parts), cache, gst, false⟩
        else
          let g := get_gemini_reply oracle req.id u gst
          ⟨.ok (fullResp req.id g.reply req.parts), cache, g.state, true⟩

/-! ## Shared concrete instances for witnesses -/

/-- Generation-client state with no live sessions and counter zero. -/
def gstEmpty : GenState := ⟨fun _ => none, 0⟩

/-- Oracle under which every external call times out. -/
def oracleT : Nat → POut := fun _ => POut.timeout

/-! ## Helper lemmas about the cache -/

/-- Appending through the bounded slice never exceeds a positive capacity. -/
theorem pySliceLast_length_le {n : Nat} (h : 0 < n) (l : List α) :
    (pySliceLast n l).length ≤ n := by
  unfold pySliceLast
  rw [if_neg (by omega)]
  simp only [List.length_drop]
  omega

/-- The bounded slice is the identity on lists within capacity. -/
theorem pySliceLast_eq_self {n : Nat} {l : List α} (h : l.length ≤ n) :
    pySliceLast n l = l := by
  unfold pySliceLast
  split
  · rfl
  · have hz : l.length - n = 0 := by omega
    simp [hz]

/-- Capping before appending more is the same as capping once at the end. -/
theorem pySliceLast_absorb {n : Nat} (h : 0 < n) (A B : List α) :
    pySliceLast n (pySliceLast n A ++ B) = pySliceLast n (A ++ B) := by
  by_cases hA : A.length ≤ n
  · rw [pySliceLast_eq_self hA]
  · unfold pySliceLast
    rw [if_neg (by omega), if_neg (by omega), if_neg (by omega)]
    rw [List.drop_append_eq_append_drop, List.drop_append_eq_append_drop,
      List.drop_drop]
    simp only [List.length_append, List.length_drop]
    congr 1
    · congr 1
      omega
    · congr 1
      omega

/-- Folding appends from a within-capacity start caps the concatenation. -/
theorem appendAll_eq {n : Nat} (h : 0 < n) :
    ∀ (entries : List TipEntry) (hist : List TipEntry), hist.length ≤ n →
      appendAll n hist entries = pySliceLast n (hist ++ entries) := by
  intro entries
  induction entries with
  | nil =>
    intro hist hh
    simp only [appendAll, List.foldl_nil, List.append_nil]
    exact (pySliceLast_eq_self hh).symm
  | cons e es ih =>
    intro hist hh
    have step : appendAll n hist (e :: es) =
        appendAll n (pySliceLast n (hist ++ [e])) es := rfl
    rw [step, ih _ (pySliceLast_length_le h _), pySliceLast_absorb h]
    simp

/-! ## C7 — bounded history -/

/-- C7: with the history capacity configured to 7, every append leaves at most
7 entries, and appending any 10 tips from any starting history leaves exactly
the 7 most recently appended entries in append order. -/
theorem c7_history_bound :
    (∀ (hist : List TipEntry) (d t : String),
      (add_tip_to_history 7 hist d t).length ≤ 7) ∧
    (∀ (hist : List TipEntry) (entries : List TipEntry), entries.length = 10 →
      appendAll 7 hist entries = entries.drop 3 ∧
      (appendAll 7 hist entries).length = 7) := by
  constructor
  · intro hist d t
    exact pySliceLast_length_le (by omega) _
  · intro hist entries hlen
    cases entries with
    | nil => simp at hlen
    | cons e es =>
      have step : appendAll 7 hist (e :: es) =
          appendAll 7 (pySliceLast 7 (hist ++ [e])) es := rfl
      have hes : es.length = 9 := by simpa using hlen
      have main : appendAll 7 hist (e :: es) = pySliceLast 7 (hist ++ e :: es) := by
        rw [step, appendAll_eq (by omega) es _ (pySliceLast_length_le (by omega) _),
          pySliceLast_absorb (by omega)]
        simp
      have hdrop : pySliceLast 7 (hist ++ e :: es) = (e :: es).drop 3 := by
        unfold pySliceLast
        rw [if_neg (by omega)]
        have harith : (hist ++ e :: es).length - 7 = hist.length + 3 := by
          simp only [List.length_append, List.length_cons, hes]
          omega
        rw [harith, ← List.drop_drop, List.drop_left]
      refine ⟨main.trans hdrop, ?_⟩
      rw [main.trans hdrop]
      simp [hes]

/-- Witness for C7: appending 10 concrete tips to a concrete 3-entry history
leaves exactly the last 7, in order. -/
theorem c7_history_bound_witness :
    (add_tip_to_history 7 [⟨"d0", "t0"⟩] "d1" "t1").length ≤ 7 ∧
    appendAll 7 [⟨"h1", "x1"⟩, ⟨"h2", "x2"⟩, ⟨"h3", "x3"⟩]
      [⟨"d1", "t1"⟩, ⟨"d2", "t2"⟩, ⟨"d3", "t3"⟩, ⟨"d4", "t4"⟩, ⟨"d5", "t5"⟩,
       ⟨"d6", "t6"⟩, ⟨"d7", "t7"⟩, ⟨"d8", "t8"⟩, ⟨"d9", "t9"⟩, ⟨"d10", "t10"⟩] =
      [⟨"d4", "t4"⟩, ⟨"d5", "t5"⟩, ⟨"d6", "t6"⟩, ⟨"d7", "t7"⟩, ⟨"d8", "t8"⟩,
       ⟨"d9", "t9"⟩, ⟨"d10", "t10"⟩] :=
  ⟨c7_history_bound.1 [⟨"d0", "t0"⟩] "d1" "t1",
   (c7_history_bound.2 [⟨"h1", "x1"⟩, ⟨"h2", "x2"⟩, ⟨"h3", "x3"⟩]
      [⟨"d1", "t1"⟩, ⟨"d2", "t2"⟩, ⟨"d3", "t3"⟩, ⟨"d4", "t4"⟩, ⟨"d5", "t5"⟩,
       ⟨"d6", "t6"⟩, ⟨"d7", "t7"⟩, ⟨"d8", "t8"⟩, ⟨"d9", "t9"⟩, ⟨"d10", "t10"⟩]
      (by decide)).1⟩

/-! ## C8 — same-day cache -/

/-- C8: `get_cached_tip_for_today` is a pure read, so two calls against the
same history and the same observed day return the identical value; and when a
day yields a cached tip, any different (later) day with no intervening append
yields `none`. -/
theorem c8_same_day_cache :
    (∀ (hist : List TipEntry) (d : String),
      get_cached_tip_for_today hist d = get_cached_tip_for_today hist d) ∧
    (∀ (hist : List TipEntry) (d dd t : String),
      get_cached_tip_for_today hist d = some t → dd ≠ d →
      get_cached_tip_for_today hist dd = none) := by
  constructor
  · intro hist d
    rfl
  · intro hist d dd t hsome hne
    unfold get_cached_tip_for_today at hsome ⊢
    cases hlast : hist.getLast? with
    | none => rfl
    | some last =>
      rw [hlast] at hsome
      dsimp only at hsome ⊢
      by_cases hd : last.date = d
      · rw [if_neg (by rw [hd]; exact fun hdd => hne hdd.symm)]
      · rw [if_neg hd] at hsome
        exact absurd hsome (by simp)

/-- Witness for C8 at a concrete one-entry history: the recorded day yields
the tip (twice, identically), the next day yields `none`. -/
theorem c8_same_day_cache_witness :
    get_cached_tip_for_today [⟨"2026-10-12", "drink water"⟩] "2026-10-12" =
      get_cached_tip_for_today [⟨"2026-10-12", "drink water"⟩] "2026-10-12" ∧
    get_cached_tip_for_today [⟨"2026-10-12", "drink water"⟩] "2026-10-13" = none :=
  ⟨c8_same_day_cache.1 [⟨"2026-10-12", "drink water"⟩] "2026-10-12",
   c8_same_day_cache.2 [⟨"2026-10-12", "drink water"⟩] "2026-10-12" "2026-10-13"
     "drink water" (by decide) (by decide)⟩

/-! ## C1 — malformed request handling -/

/-- C1 (code evaluation): for every inbound body that is not valid JSON or
fails envelope validation, the handler does not return an RPC Error response;
instead its own `except` clause raises (`rpc_request` is unbound there), so
the request crashes with an unhandled exception, whatever the cache state,
session state and provider behaviour. -/
theorem c1_malformed_request_crashes :
    ∀ (cache : List TipEntry) (gst : GenState) (oracle : Nat → POut),
      (message cache gst oracle InboundBody.notJson).res = Except.error crashMsg ∧
      (message cache gst oracle InboundBody.invalidEnvelope).res = Except.error crashMsg := by
  intro cache gst oracle
  exact ⟨rfl, rfl⟩

/-! ## C2 — refresh never appends -/

/-- Concrete history holding a cached tip for the request day, used to
evaluate the refresh scenario. -/
def cacheWithToday : List TipEntry := [⟨"2026-10-12", "Tip A"⟩]

/-- Concrete inbound envelope whose extracted utterance is `refresh`. -/
def refreshBody : InboundBody :=
  InboundBody.valid ⟨"req-1", "message/send", [⟨"text", some "refresh", none⟩]⟩

/-- C2 (code evaluation): no branch of the message handler ever writes the
tip-history file — the refresh append block is disabled in the source — so a
`refresh` utterance does invoke the generation client but leaves the stored
history unchanged: no second entry for the day is appended. -/
theorem c2_refresh_calls_but_never_appends :
    (∀ (cache : List TipEntry) (gst : GenState) (oracle : Nat → POut) (b : InboundBody),
      (message cache gst oracle b).cacheAfter = cache) ∧
    (∀ (gst : GenState) (oracle : Nat → POut),
      (message cacheWithToday gst oracle refreshBody).calledGemini = true ∧
      (message cacheWithToday gst oracle refreshBody).cacheAfter = cacheWithToday) := by
  constructor
  · intro cache gst oracle b
    cases b with
    | notJson => rfl
    | invalidEnvelope => rfl
    | valid req =>
      simp only [message]
      split
      · rfl
      · split
        · rfl
        · split
          · rfl
          · split
            · rfl
            · rfl
  · intro gst oracle
    exact ⟨rfl, rfl⟩

/-! ## C3 — empty utterance response -/

/-- Modelled from the spec: an RPC Error response of the client-error family
(parse error −32700, invalid request −32600, invalid params −32602), used to
state what the spec demands of the No-Extractable-Text case. -/
def isClientErrorFamily (r : HResult) : Bool :=
  match r.res with
  | .ok resp =>
    match resp.error with
    | some e => decide (e.code = -32602 ∨ e.code = -32600 ∨ e.code = -32700)
    | none => false
  | .error _ => false

/-- Concrete parsed envelope with `parts = []`. -/
def emptyPartsReq : RpcReq := ⟨"req-0", "message/send", []⟩

/-- C3 counterexample: for the envelope with `parts = []` the handler's answer
is not an RPC Error of the client-error (invalid-params) family — no error
member is populated at all. -/
theorem c3_counterexample :
    isClientErrorFamily (message [] gstEmpty oracleT (InboundBody.valid emptyPartsReq)) = false := by
  rfl

/-- C3 (amended): whenever extraction yields the empty utterance, the handler
returns HTTP 200 with the bare `RpcResponse` envelope — the request id echoed,
no result and no error member — so it is never a server error and never a
populated success envelope, but it is not an invalid-params RPC Error
either. -/
theorem c3_empty_utterance_bare_envelope :
    ∀ (cache : List TipEntry) (gst : GenState) (oracle : Nat → POut) (req : RpcReq),
      req.method = "message/send" → extract_user_text req.parts = Except.ok "" →
      message cache gst oracle (InboundBody.valid req) =
        ⟨Except.ok (emptyResp req.id), cache, gst, false⟩ := by
  intro cache gst oracle req hm he
  simp [message, hm, he]

/-- Witness for C3 at the concrete `parts = []` envelope. -/
theorem c3_empty_utterance_bare_envelope_witness :
    message [] gstEmpty oracleT (InboundBody.valid emptyPartsReq) =
      ⟨Except.ok (emptyResp "req-0"), [], gstEmpty, false⟩ :=
  c3_empty_utterance_bare_envelope [] gstEmpty oracleT emptyPartsReq rfl rfl

/-! ## C4 — extraction precedence -/

/-- The parts list of the spec's extraction-precedence example: a data part
wrapping the nested text item `B`, followed by a text part `A`. -/
def c4Parts : List MessagePart :=
  [⟨"data", none, some [⟨some "text", some "B"⟩]⟩, ⟨"text", some "A", none⟩]

/-- C4 counterexample: on the spec's example the extracted canonical utterance
is not the lower-cased `a` — the handler never lower-cases the stored
utterance. -/
theorem c4_counterexample : extract_user_text c4Parts ≠ Except.ok "a" := by
  intro h
  have he : extract_user_text c4Parts = Except.ok "A" := rfl
  rw [he] at h
  have hAa : ("A" : String) = "a" := by injection h
  exact absurd hAa (by decide)

/-- C4 (amended): extraction scans the parts in reverse order and takes the
most recent non-empty text, cleaned by `clean_text` (HTML-tag removal and
trim) but not lower-cased: whenever the last part is a text part with
non-empty stripped text, its cleaned text is the extracted utterance, and on
the spec's example the result is `A` (lower-casing happens only inside the
keyword classification). -/
theorem c4_reverse_scan_no_lowercase :
    extract_user_text c4Parts = Except.ok "A" ∧
    (∀ (ps : List MessagePart) (t : String), pyStrip t ≠ "" →
      extract_user_text (ps ++ [⟨"text", some t, none⟩]) = Except.ok (clean_text t)) := by
  constructor
  · rfl
  · intro ps t ht
    simp only [extract_user_text, List.reverse_append, List.reverse_cons,
      List.reverse_nil, List.nil_append, List.singleton_append]
    simp [extractLoop, ht]

/-- Witness for C4 at the example's own text part. -/
theorem c4_reverse_scan_no_lowercase_witness :
    extract_user_text ([⟨"data", none, some [⟨some "text", some "B"⟩]⟩] ++
      [⟨"text", some "A", none⟩]) = Except.ok (clean_text "A") :=
  c4_reverse_scan_no_lowercase.2 [⟨"data", none, some [⟨some "text", some "B"⟩]⟩]
    "A" (by decide)

/-! ## C10 — greeting precedence over the health filter -/

/-- C10: any utterance whose lower-cased stripped form contains a greeting
keyword as a substring is answered by the fixed greeting reply with zero
external model calls — the greeting gate runs before the health-keyword
filter, so health words like `yoga` (contains `yo`) and `hiit` (contains
`hi`) never reach generation. -/
theorem c10_greeting_substring_precedence :
    ∀ (oracle : Nat → POut) (uid msg : String) (st : GenState),
      greetings.any (fun g => containsSub (pyStrip (strLower msg)) g) = true →
      (get_gemini_reply oracle uid msg st).reply = greetingReply ∧
      (get_gemini_reply oracle uid msg st).modelCalls = 0 := by
  intro oracle uid msg st hg
  simp [get_gemini_reply, hg]

/-- Witness for C10: the health-domain utterances `yoga` and `hiit` both get
the greeting reply and make no model call. -/
theorem c10_greeting_substring_precedence_witness :
    ((get_gemini_reply oracleT "u1" "yoga" gstEmpty).reply = greetingReply ∧
      (get_gemini_reply oracleT "u1" "yoga" gstEmpty).modelCalls = 0) ∧
    ((get_gemini_reply oracleT "u1" "hiit" gstEmpty).reply = greetingReply ∧
      (get_gemini_reply oracleT "u1" "hiit" gstEmpty).modelCalls = 0) :=
  ⟨c10_greeting_substring_precedence oracleT "u1" "yoga" gstEmpty (by decide),
   c10_greeting_substring_precedence oracleT "u1" "hiit" gstEmpty (by decide)⟩

/-! ## C6 — timeout, retry with fresh session, fallback -/

/-- Predicate on the used-session log: exactly two external calls were made
and the retry used a session different from the first attempt's. -/
def sidsDistinct : List Nat → Bool
  | [a, b] => a != b
  | _ => false

/-- C6: for any generation call that reaches the provider (past the greeting
and health gates), if the first attempt times out and the retry also times
out, then the reply is the fixed timeout fallback (the embedding is a total
function: the Python loop catches the timeout, so nothing is raised), exactly
two external calls were made, and the retry ran on a fresh session: its
session id differs from the first attempt's. The hypothesis on `st` is the
allocation invariant that live session ids are below the fresh-id counter. -/
theorem c6_timeout_retry_fallback :
    ∀ (oracle : Nat → POut) (uid msg : String) (st : GenState),
      (∀ u s, st.users u = some s → s.sid < st.nextId) →
      greetings.any (fun g => containsSub (pyStrip (strLower msg)) g) = false →
      health_keywords.any (fun k => containsSub (pyStrip (strLower msg)) k) = true →
      oracle 0 = POut.timeout → oracle 1 = POut.timeout →
      (get_gemini_reply oracle uid msg st).reply = timeoutFallback ∧
      (get_gemini_reply oracle uid msg st).modelCalls = 2 ∧
      sidsDistinct (get_gemini_reply oracle uid msg st).sids = true := by
  intro oracle uid msg st hwf hg hh h0 h1
  cases hu : st.users uid with
  | none =>
    simp [get_gemini_reply, get_or_create_session, add_to_history, popUser, hu,
      hg, hh, h0, h1, sidsDistinct]
  | some u =>
    have hlt : u.sid < st.nextId := hwf uid u hu
    simp [get_gemini_reply, get_or_create_session, add_to_history, popUser, hu,
      hg, hh, h0, h1, sidsDistinct]
    omega

/-- Witness for C6: with no live sessions and an always-timeout provider, the
utterance `fitness` gets the timeout fallback after two calls on distinct
sessions. -/
theorem c6_timeout_retry_fallback_witness :
    (get_gemini_reply oracleT "u1" "fitness" gstEmpty).reply = timeoutFallback ∧
    (get_gemini_reply oracleT "u1" "fitness" gstEmpty).modelCalls = 2 ∧
    sidsDistinct (get_gemini_reply oracleT "u1" "fitness" gstEmpty).sids = true :=
  c6_timeout_retry_fallback oracleT "u1" "fitness" gstEmpty
    (fun _ _ h => nomatch h) (by decide) (by decide) rfl rfl

/-! ## C9 — reply truncation -/

/-- Modelled from the spec: truncation at the configured maximum tip length
(`MAX_TIP_LENGTH_CHARS`, default 280) — output longer than the limit is cut at
the last whitespace boundary before the limit with an ellipsis appended,
output within the limit passes through unchanged. -/
def specTruncateAtLimit (limit : Nat) (s : String) : String :=
  if s.length > limit then String.mk (rsplitDrop (s.toList.take limit) ++ ("...".toList))
  else s

/-- A successful 250-character model reply: within the spec's default
280-character limit, yet truncated by the code. -/
def c9LongReply : String := String.mk (List.replicate 250 'a')

set_option maxRecDepth 8000 in
/-- C9 counterexample: on a 250-character reply the code's truncation differs
from truncation at the configured default limit of 280 — the code cuts at a
hardcoded 200 characters, so a reply the spec would pass through unchanged
comes back shortened. -/
theorem c9_counterexample :
    truncateReply c9LongReply ≠ specTruncateAtLimit 280 c9LongReply := by
  decide

/-- The part kept by `rsplit` never exceeds the input. -/
theorem rsplitDrop_length_le (l : List Char) : (rsplitDrop l).length ≤ l.length := by
  unfold rsplitDrop
  cases h : l.reverse.findIdx? (fun c => c == ' ') with
  | none => exact Nat.le_refl _
  | some i =>
    simp only [List.length_reverse, List.length_drop]
    omega

/-- C9 (amended): the reply-length bound is enforced with a hardcoded
200-character limit, not the configured `MAX_TIP_LENGTH_CHARS` (default 280):
replies of at most 200 characters pass through unchanged, longer replies are
cut at the last space within the first 200 characters plus an ellipsis, so
every successfully generated reply is at most 203 characters (within 280 plus
the marker, but independent of the configuration); and on the success path of
`get_gemini_reply` the returned reply is exactly this truncation of the
sanitized model output. -/
theorem c9_truncation_hardcoded_200 :
    (∀ s : String, (truncateReply s).length ≤ 203) ∧
    (∀ s : String, s.length ≤ 200 → truncateReply s = s) ∧
    (∀ (oracle : Nat → POut) (uid msg raw : String) (st : GenState),
      greetings.any (fun g => containsSub (pyStrip (strLower msg)) g) = false →
      health_keywords.any (fun k => containsSub (pyStrip (strLower msg)) k) = true →
      oracle 0 = POut.ok raw → pyStrip (sanitize_text raw) ≠ "" →
      (get_gemini_reply oracle uid msg st).reply = truncateReply (pyStrip (sanitize_text raw))) := by
  refine ⟨?_, ?_, ?_⟩
  · intro s
    unfold truncateReply
    split
    · show (rsplitDrop (s.toList.take 200) ++ ("...".toList)).length ≤ 203
      have h1 := rsplitDrop_length_le (s.toList.take 200)
      have h2 : (s.toList.take 200).length ≤ 200 := by
        simp only [List.length_take]
        omega
      have h3 : ("...".toList).length = 3 := rfl
      simp only [List.length_append]
      omega
    · next h =>
      omega
  · intro s hs
    unfold truncateReply
    rw [if_neg (by omega)]
  · intro oracle uid msg raw st hg hh h0 hne
    simp [get_gemini_reply, finishReply, hg, hh, h0, hne]

/-- Witness for C9: a short reply passes through unchanged (and meets the
bound), and a concrete successful generation returns the truncation of its
sanitized output. -/
theorem c9_truncation_hardcoded_200_witness :
    (truncateReply "short tip").length ≤ 203 ∧
    truncateReply "short tip" = "short tip" ∧
    (get_gemini_reply (fun _ => POut.ok "Stay active and hydrated every day.")
        "u1" "fitness" gstEmpty).reply =
      truncateReply (pyStrip (sanitize_text "Stay active and hydrated every day.")) :=
  ⟨c9_truncation_hardcoded_200.1 "short tip",
   c9_truncation_hardcoded_200.2.1 "short tip" (by decide),
   c9_truncation_hardcoded_200.2.2 (fun _ => POut.ok "Stay active and hydrated every day.")
     "u1" "fitness" "Stay active and hydrated every day." gstEmpty
     (by decide) (by decide) rfl (by decide)⟩

/-! ## C5 — sanitizer idempotence analysis -/

/-- Inputs without an ampersand are untouched by the entity decoder. -/
theorem unescAux_id : ∀ l : List Char, '&' ∉ l → unescAux l 0 = l := by
  intro l
  induction l with
  | nil => intro _; rfl
  | cons c rest ih =>
    intro h
    have hc : (c == '&') = false := by
      simp only [beq_eq_false_iff_ne, ne_eq]
      intro hcc
      exact h (hcc ▸ List.mem_cons_self c rest)
    have ht : '&' ∉ rest := fun hm => h (List.mem_cons_of_mem c hm)
    simp [unescAux, hc, ih ht]

/-- Inputs without an opening bracket are untouched by the tag stripper. -/
theorem stripTagsAux_id : ∀ l : List Char, '<' ∉ l → stripTagsAux l 0 = l := by
  intro l
  induction l with
  | nil => intro _; rfl
  | cons c rest ih =>
    intro h
    have hc : (c == '<') = false := by
      simp only [beq_eq_false_iff_ne, ne_eq]
      intro hcc
      exact h (hcc ▸ List.mem_cons_self c rest)
    have ht : '<' ∉ rest := fun hm => h (List.mem_cons_of_mem c hm)
    simp [stripTagsAux, hc, ih ht]

/-- A URL-scan match position starts with the four literal characters. -/
theorem isHttpStart_yields_http : ∀ l : List Char, isHttpStart l = true →
    ['h', 't', 't', 'p'] <+: l := by
  intro l h
  unfold isHttpStart at h
  split at h
  · next d r => exact ⟨d :: r, rfl⟩
  · exact absurd h (by simp)

/-- Inputs with no `http` substring are untouched by the URL stripper. -/
theorem stripUrlsAux_id : ∀ l : List Char, ¬ List.IsInfix ['h', 't', 't', 'p'] l →
    stripUrlsAux l 0 = l := by
  intro l
  induction l with
  | nil => intro _; rfl
  | cons c rest ih =>
    intro h
    have hs : isHttpStart (c :: rest) = false := by
      cases hq : isHttpStart (c :: rest)
      · rfl
      · exact absurd ((isHttpStart_yields_http _ hq).isInfix) h
    have ht : ¬ List.IsInfix ['h', 't', 't', 'p'] rest := fun hm => h (List.infix_cons hm)
    simp [stripUrlsAux, hs, ih ht]

/-- All-ASCII inputs are untouched by the non-ASCII stripper. -/
theorem stripNonAscii_id (l : List Char) (h : ∀ c ∈ l, c.toNat ≤ 127) :
    stripNonAscii l = l :=
  List.filter_eq_self.mpr (fun a ha => by simpa using h a ha)

/-- Every character the whitespace collapse emits is an input character or the
replacement space. -/
theorem mem_collapseAux : ∀ (l : List Char) (b : Bool) (c : Char),
    c ∈ collapseAux l b → c ∈ l ∨ c = ' ' := by
  intro l
  induction l with
  | nil => intro b c h; simp [collapseAux] at h
  | cons d rest ih =>
    intro b c h
    by_cases hd : isPyWs d = true
    · cases b with
      | true =>
        simp only [collapseAux, hd, if_true] at h
        rcases ih true c h with hm | hsp
        · exact Or.inl (List.mem_cons_of_mem d hm)
        · exact Or.inr hsp
      | false =>
        simp only [collapseAux, hd, if_true] at h
        rcases List.mem_cons.mp h with hsp | hm
        · exact Or.inr hsp
        · rcases ih true c hm with hm2 | hsp
          · exact Or.inl (List.mem_cons_of_mem d hm2)
          · exact Or.inr hsp
    · have hd2 : (isPyWs d : Bool) = false := eq_false_of_ne_true hd
      simp only [collapseAux, hd2, Bool.false_eq_true, if_false] at h
      rcases List.mem_cons.mp h with hc | hm
      · exact Or.inl (by rw [hc]; exact List.mem_cons_self d rest)
      · rcases ih false c hm with hm2 | hsp
        · exact Or.inl (List.mem_cons_of_mem d hm2)
        · exact Or.inr hsp

/-- Collapse walks past a non-whitespace head unchanged (whatever the flag). -/
theorem collapseAux_cons_nonws {d : Char} (hd : isPyWs d = false) (rest : List Char)
    (b : Bool) : collapseAux (d :: rest) b = d :: collapseAux rest false := by
  simp [collapseAux, hd]

/-- A whitespace-free pattern that prefixes the collapsed list prefixes the
original list. -/
theorem collapse_pre : ∀ l pat : List Char, pat ≠ [] →
    (∀ c ∈ pat, isPyWs c = false) → pat <+: collapseAux l false → pat <+: l := by
  intro l
  induction l with
  | nil =>
    intro pat hne _ hp
    exact absurd (List.prefix_nil.mp hp) hne
  | cons d rest ih =>
    intro pat hne hws hp
    obtain ⟨p0, pt, rfl⟩ : ∃ p0 pt, pat = p0 :: pt := by
      cases pat with
      | nil => exact absurd rfl hne
      | cons a b => exact ⟨a, b, rfl⟩
    by_cases hd : isPyWs d = true
    · simp only [collapseAux, hd, if_true, Bool.false_eq_true, if_false] at hp
      rw [List.cons_prefix_cons] at hp
      have hws0 : isPyWs p0 = false := hws p0 (List.mem_cons_self p0 pt)
      rw [hp.1] at hws0
      exact absurd hws0 (by decide)
    · have hd2 : (isPyWs d : Bool) = false := eq_false_of_ne_true hd
      rw [collapseAux_cons_nonws hd2] at hp
      rw [List.cons_prefix_cons] at hp ⊢
      refine ⟨hp.1, ?_⟩
      cases pt with
      | nil => exact List.nil_prefix
      | cons q qt =>
        exact ih (q :: qt) (by simp)
          (fun c hc => hws c (List.mem_cons_of_mem p0 hc)) hp.2

/-- A whitespace-free pattern occurring inside the collapsed list occurs
inside the original list. -/
theorem collapse_inf : ∀ (l : List Char) (b : Bool) (pat : List Char), pat ≠ [] →
    (∀ c ∈ pat, isPyWs c = false) → pat <:+: collapseAux l b → pat <:+: l := by
  intro l
  induction l with
  | nil =>
    intro b pat hne _ hp
    rw [show collapseAux [] b = [] from rfl] at hp
    exact absurd (List.infix_nil.mp hp) hne
  | cons d rest ih =>
    intro b pat hne hws hp
    by_cases hd : isPyWs d = true
    · cases b with
      | true =>
        simp only [collapseAux, hd, if_true] at hp
        exact List.infix_cons (ih true pat hne hws hp)
      | false =>
        simp only [collapseAux, hd, if_true, Bool.false_eq_true, if_false] at hp
        rw [List.infix_cons_iff] at hp
        rcases hp with hpre | hinf
        · obtain ⟨p0, pt, rfl⟩ : ∃ p0 pt, pat = p0 :: pt := by
            cases pat with
            | nil => exact absurd rfl hne
            | cons a b => exact ⟨a, b, rfl⟩
          rw [List.cons_prefix_cons] at hpre
          have hws0 : isPyWs p0 = false := hws p0 (List.mem_cons_self p0 pt)
          rw [hpre.1] at hws0
          exact absurd hws0 (by decide)
        · exact List.infix_cons (ih true pat hne hws hinf)
    · have hd2 : (isPyWs d : Bool) = false := eq_false_of_ne_true hd
      rw [collapseAux_cons_nonws hd2] at hp
      rw [List.infix_cons_iff] at hp
      rcases hp with hpre | hinf
      · obtain ⟨p0, pt, rfl⟩ : ∃ p0 pt, pat = p0 :: pt := by
          cases pat with
          | nil => exact absurd rfl hne
          | cons a b => exact ⟨a, b, rfl⟩
        rw [List.cons_prefix_cons] at hpre
        cases pt with
        | nil =>
          refine List.IsPrefix.isInfix ?_
          rw [List.cons_prefix_cons]
          exact ⟨hpre.1, List.nil_prefix⟩
        | cons q qt =>
          refine List.IsPrefix.isInfix ?_
          rw [List.cons_prefix_cons]
          exact ⟨hpre.1, collapse_pre rest (q :: qt) (by simp)
            (fun c hc => hws c (List.mem_cons_of_mem p0 hc)) hpre.2⟩
      · exact List.infix_cons (ih false pat hne hws hinf)

/-- Adjacent output characters of the collapse are never both spaces. -/
def spaceAdj (a b : Char) : Prop := ¬(a = ' ' ∧ b = ' ')

/-- In skip-leading-whitespace mode the collapse never emits a leading
whitespace character. -/
theorem collapse_head_true : ∀ (l : List Char) (x : Char),
    (collapseAux l true).head? = some x → isPyWs x = false := by
  intro l
  induction l with
  | nil => intro x h; simp [collapseAux] at h
  | cons d rest ih =>
    intro x h
    by_cases hd : isPyWs d = true
    · simp only [collapseAux, hd, if_true] at h
      exact ih x h
    · have hd2 : (isPyWs d : Bool) = false := eq_false_of_ne_true hd
      rw [collapseAux_cons_nonws hd2] at h
      simp only [List.head?_cons, Option.some.injEq] at h
      rw [← h]
      exact hd2

/-- The collapse output has no two adjacent spaces. -/
theorem chain_collapse : ∀ (l : List Char) (b : Bool),
    List.Chain' spaceAdj (collapseAux l b) := by
  intro l
  induction l with
  | nil => intro b; exact List.chain'_nil
  | cons d rest ih =>
    intro b
    by_cases hd : isPyWs d = true
    · cases b with
      | true =>
        simp only [collapseAux, hd, if_true]
        exact ih true
      | false =>
        simp only [collapseAux, hd, if_true, Bool.false_eq_true, if_false]
        rw [List.chain'_cons']
        refine ⟨?_, ih true⟩
        intro y hy
        rw [Option.mem_def] at hy
        have hyws := collapse_head_true rest y hy
        intro hand
        rw [hand.2] at hyws
        exact absurd hyws (by decide)
    · have hd2 : (isPyWs d : Bool) = false := eq_false_of_ne_true hd
      rw [collapseAux_cons_nonws hd2]
      rw [List.chain'_cons']
      refine ⟨?_, ih false⟩
      intro y _
      intro hand
      rw [hand.1] at hd2
      exact absurd hd2 (by decide)

/-- Every whitespace character the collapse emits is the single space. -/
theorem allSpace_collapse : ∀ (l : List Char) (b : Bool) (c : Char),
    c ∈ collapseAux l b → isPyWs c = true → c = ' ' := by
  intro l
  induction l with
  | nil => intro b c h _; simp [collapseAux] at h
  | cons d rest ih =>
    intro b c h hws
    by_cases hd : isPyWs d = true
    · cases b with
      | true =>
        simp only [collapseAux, hd, if_true] at h
        exact ih true c h hws
      | false =>
        simp only [collapseAux, hd, if_true, Bool.false_eq_true, if_false] at h
        rcases List.mem_cons.mp h with hsp | hm
        · exact hsp
        · exact ih true c hm hws
    · have hd2 : (isPyWs d : Bool) = false := eq_false_of_ne_true hd
      rw [collapseAux_cons_nonws hd2] at h
      rcases List.mem_cons.mp h with hc | hm
      · rw [hc] at hws
        rw [hws] at hd2
        exact absurd hd2 (by simp)
      · exact ih false c hm hws

/-- Fixed-point property: a list whose whitespace characters are all single,
non-adjacent spaces is unchanged by the collapse. -/
theorem collapse_fix : ∀ l : List Char, (∀ c ∈ l, isPyWs c = true → c = ' ') →
    List.Chain' spaceAdj l → collapseAux l false = l := by
  intro l
  induction l with
  | nil => intro _ _; rfl
  | cons d rest ih =>
    intro hall hch
    have hch2 := List.chain'_cons'.mp hch
    have htailall : ∀ c ∈ rest, isPyWs c = true → c = ' ' :=
      fun c hc => hall c (List.mem_cons_of_mem d hc)
    by_cases hd : isPyWs d = true
    · have hdsp : d = ' ' := hall d (List.mem_cons_self d rest) hd
      subst hdsp
      simp only [collapseAux, if_true, Bool.false_eq_true, if_false,
        show isPyWs ' ' = true from rfl]
      congr 1
      cases rest with
      | nil => rfl
      | cons e tail =>
        have hR : spaceAdj ' ' e := hch2.1 e rfl
        have hene : e ≠ ' ' := fun hee => hR ⟨rfl, hee⟩
        have he : isPyWs e = false := by
          by_cases hwe : isPyWs e = true
          · exact absurd (htailall e (List.mem_cons_self e tail) hwe) hene
          · exact eq_false_of_ne_true hwe
        calc collapseAux (e :: tail) true
            = e :: collapseAux tail false := collapseAux_cons_nonws he tail true
          _ = collapseAux (e :: tail) false := (collapseAux_cons_nonws he tail false).symm
          _ = e :: tail := ih htailall hch2.2
    · have hd2 : (isPyWs d : Bool) = false := eq_false_of_ne_true hd
      rw [collapseAux_cons_nonws hd2]
      congr 1
      exact ih htailall hch2.2

/-! ## Strip lemmas -/

/-- The head surviving a `dropWhile` fails the predicate. -/
theorem dropWhile_head_false (p : Char → Bool) : ∀ (l : List Char) (x : Char),
    (l.dropWhile p).head? = some x → p x = false := by
  intro l
  induction l with
  | nil => intro x h; simp [List.dropWhile] at h
  | cons c t ih =>
    intro x h
    rw [List.dropWhile_cons] at h
    split at h
    · exact ih x h
    · next hc =>
      simp only [List.head?_cons, Option.some.injEq] at h
      rw [← h]
      exact eq_false_of_ne_true hc

/-- `dropWhile` is the identity when the head (if any) fails the predicate. -/
theorem dropWhile_eq_self_of_head (p : Char → Bool) (l : List Char)
    (h : ∀ x, l.head? = some x → p x = false) : l.dropWhile p = l := by
  cases l with
  | nil => rfl
  | cons c t => simp [List.dropWhile_cons, h c rfl]

/-- `dropWhile` is idempotent. -/
theorem dropWhile_idem (p : Char → Bool) (l : List Char) :
    (l.dropWhile p).dropWhile p = l.dropWhile p :=
  dropWhile_eq_self_of_head p _ (dropWhile_head_false p l)

/-- Removal of trailing whitespace (the second half of Python `strip`). -/
def trimEnd (l : List Char) : List Char := (l.reverse.dropWhile isPyWs).reverse

/-- `pyStripL` is trailing-trim after leading-trim. -/
theorem pyStripL_decomp (l : List Char) : pyStripL l = trimEnd (l.dropWhile isPyWs) := rfl

/-- Trailing trim keeps an initial segment of the list. -/
theorem trimEnd_pre (l : List Char) : trimEnd l <+: l := by
  have h1 : l.reverse.dropWhile isPyWs <:+ l.reverse := List.dropWhile_suffix isPyWs
  have h2 := List.reverse_prefix.mpr h1
  rwa [List.reverse_reverse] at h2

/-- Trailing trim is idempotent. -/
theorem trimEnd_idem (l : List Char) : trimEnd (trimEnd l) = trimEnd l := by
  unfold trimEnd
  rw [List.reverse_reverse, dropWhile_idem]

/-- A non-empty initial segment starts with the same head. -/
theorem head_of_pre {p q : List Char} {x : Char} (h : p <+: q)
    (hx : p.head? = some x) : q.head? = some x := by
  obtain ⟨t, rfl⟩ := h
  cases p with
  | nil => simp at hx
  | cons a b => simpa using hx

/-- Python `strip` is idempotent. -/
theorem pyStripL_idem (l : List Char) : pyStripL (pyStripL l) = pyStripL l := by
  have hD : (trimEnd (l.dropWhile isPyWs)).dropWhile isPyWs =
      trimEnd (l.dropWhile isPyWs) := by
    apply dropWhile_eq_self_of_head
    intro x hx
    exact dropWhile_head_false isPyWs l x (head_of_pre (trimEnd_pre _) hx)
  rw [pyStripL_decomp, pyStripL_decomp, hD, trimEnd_idem]

/-- The stripped list occurs inside the original list. -/
theorem pyStripL_inf (l : List Char) : pyStripL l <:+: l := by
  rw [pyStripL_decomp]
  obtain ⟨t1, he1⟩ := trimEnd_pre (l.dropWhile isPyWs)
  obtain ⟨t2, he2⟩ := List.dropWhile_suffix (l := l) isPyWs
  exact ⟨t2, t1, by rw [List.append_assoc, he1, he2]⟩

/-- Characters of the stripped list are characters of the original list. -/
theorem mem_pyStripL {l : List Char} {c : Char} (h : c ∈ pyStripL l) : c ∈ l :=
  (pyStripL_inf l).subset h

/-- C5 counterexample: the sanitizer is not idempotent. Removing the non-ASCII
character of `htt🎉p://x a` splices together `http://x a`, which the second
application then strips as a URL down to `a`. -/
theorem c5_counterexample :
    sanitize_text (sanitize_text "htt🎉p://x a") ≠ sanitize_text "htt🎉p://x a" := by
  decide

/-- C5 (amended): `sanitize_text` is a pure function of its input, and it is
idempotent on plain strings — ASCII-only, no ampersand, no opening angle
bracket, no `http` substring — on which the only active stages are whitespace
collapse and strip. In general a second application can differ (see the
counterexample). -/
theorem c5_sanitize_idempotent_on_plain :
    ∀ s : String,
      (∀ c ∈ s.toList, c.toNat ≤ 127) → '&' ∉ s.toList → '<' ∉ s.toList →
      ¬ List.IsInfix ['h', 't', 't', 'p'] s.toList →
      sanitize_text (sanitize_text s) = sanitize_text s := by
  intro s hA hAmp hLt hHttp
  have hpat_ne : (['h', 't', 't', 'p'] : List Char) ≠ [] := by simp
  have hpat_ws : ∀ c ∈ (['h', 't', 't', 'p'] : List Char), isPyWs c = false := by decide
  have e1 : sanitize_text s = String.mk (pyStripL (collapseAux s.toList false)) := by
    unfold sanitize_text
    rw [show unescape s.toList = s.toList from unescAux_id _ hAmp]
    rw [show stripTags s.toList = s.toList from stripTagsAux_id _ hLt]
    rw [show stripUrls s.toList = s.toList from stripUrlsAux_id _ hHttp]
    rw [stripNonAscii_id _ hA]
    rfl
  set o := pyStripL (collapseAux s.toList false) with ho
  have ho_mem : ∀ c ∈ o, c ∈ s.toList ∨ c = ' ' := by
    intro c hc
    exact mem_collapseAux s.toList false c (mem_pyStripL hc)
  have ho_A : ∀ c ∈ o, c.toNat ≤ 127 := by
    intro c hc
    rcases ho_mem c hc with hm | hsp
    · exact hA c hm
    · rw [hsp]; decide
  have ho_amp : '&' ∉ o := by
    intro hc
    rcases ho_mem _ hc with hm | hsp
    · exact hAmp hm
    · exact absurd hsp (by decide)
  have ho_lt : '<' ∉ o := by
    intro hc
    rcases ho_mem _ hc with hm | hsp
    · exact hLt hm
    · exact absurd hsp (by decide)
  have ho_http : ¬ List.IsInfix ['h', 't', 't', 'p'] o := by
    intro hinf
    exact hHttp (collapse_inf s.toList false _ hpat_ne hpat_ws
      (hinf.trans (pyStripL_inf _)))
  have ho_all : ∀ c ∈ o, isPyWs c = true → c = ' ' := by
    intro c hc hw
    exact allSpace_collapse s.toList false c (mem_pyStripL hc) hw
  have ho_ch : List.Chain' spaceAdj o :=
    List.Chain'.infix (chain_collapse s.toList false) (pyStripL_inf _)
  have hfix : collapseAux o false = o := collapse_fix o ho_all ho_ch
  have hself : pyStripL o = o := by
    rw [ho]
    exact pyStripL_idem _
  rw [e1]
  unfold sanitize_text
  rw [show (String.mk o).toList = o from rfl]
  rw [show unescape o = o from unescAux_id _ ho_amp]
  rw [show stripTags o = o from stripTagsAux_id _ ho_lt]
  rw [show stripUrls o = o from stripUrlsAux_id _ ho_http]
  rw [stripNonAscii_id _ ho_A]
  rw [show collapseWs o = o from hfix]
  rw [hself]

/-- Witness for C5 at a plain string with a doubled space: one sanitization
collapses it, the second leaves it unchanged. -/
theorem c5_sanitize_idempotent_on_plain_witness :
    sanitize_text (sanitize_text "hello  world") = sanitize_text "hello  world" :=
  c5_sanitize_idempotent_on_plain "hello  world" (by decide) (by decide) (by decide)
    (by decide)
